import Mathlib

/-!
Shallow embedding of the decision core of `radar_cuaca_termux.py` and
verification of its specification.

Numeric modelling: every Python float that takes part in a threshold
comparison is embedded as a rational number (`ℚ`); the decimal constants of
the source (0.3, 0.0001, 7.6, ...) are written as the exact rationals they
denote.  The only irrational quantity of the program, the population
standard deviation produced by `statistics.pstdev`, is embedded through its
square: for a nonnegative threshold `c`, `pstdev xs ≥ c ↔ pvariance xs ≥ c²`,
so the deviation classifier is stated on the population variance with the
squared thresholds `0.49` and `1`; the bridging fact over `ℝ` is proved in
`sqrt_threshold_iff` below.

Strings manipulated character by character by the previous-temperature store
are embedded as `List Char`.
-/

namespace Radar

/-- Rain-intensity category, the return values of `classify_rain_mm`. -/
inductive RainCat where
  | NONE | GERIMIS | RINGAN | SEDANG | DERAS
deriving DecidableEq, Repr

/-- Sky-condition label, the return values of `classify_sky`. -/
inductive Sky where
  | CERAH | BERAWAN | MENDUNG
  | HUJAN_GERIMIS | HUJAN_RINGAN | HUJAN_SEDANG | HUJAN_DERAS | HUJAN_POTENSIAL
deriving DecidableEq, Repr

/-- Hour risk status. -/
inductive Status where
  | Aman | Waspada | Rawan
deriving DecidableEq, Repr

/-- Deviation level derived from the precipitation volatility. -/
inductive DevLevel where
  | NONE | WARN | DANGER
deriving DecidableEq, Repr

/-- `classify_rain_mm` (source lines 312-319): fixed millimeter breakpoints.
The Python wrapper first coerces the argument with
`try: m = float(mm) except: m = 0.0`; the coercion is modelled by
`classifyRainOpt` below. -/
def classify_rain_mm (m : ℚ) : RainCat :=
  if m ≤ 1/10000 then .NONE
  else if m < 1 then .GERIMIS
  else if m < 5/2 then .RINGAN
  else if m < 38/5 then .SEDANG
  else .DERAS

/-- The `None`/unparsable-input path of `classify_rain_mm`: such inputs are
coerced to `0.0` before classification. -/
def classifyRainOpt (m : Option ℚ) : RainCat :=
  classify_rain_mm (m.getD 0)

/-- The reference rain value picked by `classify_sky` (source lines 337-339):
current-hour rain if at least `0.3`, else 3-hour accumulation if at least
`0.3`, else 6-hour accumulation if at least `0.6`, else `0`. -/
def skyRef (rainmm acc3 acc6 : ℚ) : ℚ :=
  if 3/10 ≤ rainmm then rainmm
  else if 3/10 ≤ acc3 then acc3
  else if 3/5 ≤ acc6 then acc6
  else 0

/-- The rain branch of `classify_sky` (source lines 342-345): the same
breakpoints as `classify_rain_mm`, mapped onto the HUJAN labels. -/
def rainBreak (ref : ℚ) : Sky :=
  if 38/5 ≤ ref then .HUJAN_DERAS
  else if 5/2 ≤ ref then .HUJAN_SEDANG
  else if 1 ≤ ref then .HUJAN_RINGAN
  else .HUJAN_GERIMIS

/-- `classify_sky` (source lines 321-354).  The constants of the source:
`MIN_REALRAIN = 0.3`, `MIN_ACC3_FOR_HUJAN = 0.3`, `MIN_ACC6_FOR_HUJAN = 0.6`,
`SCORE_UV_TH = 7`, `RAWAN_HUM = 75`. -/
def classify_sky (prob rainmm acc3 acc6 hum uv : ℚ) (hour : Option ℤ) : Sky :=
  let ref := skyRef rainmm acc3 acc6
  if 1/10000 < ref then rainBreak ref
  else if 60 ≤ prob then .HUJAN_POTENSIAL
  else
    let isDay := match hour with
      | some hh => decide (6 ≤ hh ∧ hh ≤ 16)
      | none => false
    if isDay = true ∧ (7 ≤ uv ∧ hum < 75) then .CERAH
    else if (60 ≤ hum ∧ hum ≤ 85) ∧ prob < 30 then .BERAWAN
    else if 75 < hum ∨ (30 ≤ prob ∧ prob < 60) then .MENDUNG
    else .BERAWAN

/-- Mapping from a rain category to the corresponding HUJAN sky label
(the NONE category never reaches the rain branch; it is sent to `BERAWAN`
as an unused default). -/
def skyOfRainCat : RainCat → Sky
  | .NONE => .BERAWAN
  | .GERIMIS => .HUJAN_GERIMIS
  | .RINGAN => .HUJAN_RINGAN
  | .SEDANG => .HUJAN_SEDANG
  | .DERAS => .HUJAN_DERAS

/-- Whether a sky label is one of the four direct-rain labels. -/
def isRainSky : Sky → Bool
  | .HUJAN_GERIMIS | .HUJAN_RINGAN | .HUJAN_SEDANG | .HUJAN_DERAS => true
  | _ => false

/-! ### Risk scoring and status resolution (source lines 1129-1208)

One hour's worth of already-coerced numeric inputs, as read off the fetched
arrays inside the hour loop of `run_once`.  `prev` is the result of
`lookup_prev_temp_for` (`none` covers a missing, empty or unparsable entry,
each of which skips the temperature-drop contribution); `bmkWarn` is the
result of the advisory keyword regex search of StatusResolver rule 1. -/
structure HourData where
  suhu : ℚ
  hujanProb : ℚ
  rainmm : ℚ
  lembap : ℚ
  angin : ℚ
  windgust : ℚ
  uv : ℚ
  acc3 : ℚ
  acc6 : ℚ
  hour : ℕ
  prev : Option ℚ
  bmkWarn : Bool
deriving Repr

/-- The risk score of one hour (source lines 1129-1145).  Constants:
`SCORE_HUMID_TH = 80`, `SCORE_TEMP_LOW = 27`, `SCORE_TEMP_HIGH = 34`,
`SCORE_TEMP_DROP = 2.0`, `SCORE_WIND_MIN = 10`, `SCORE_WIND_MAX = 25`,
`SCORE_GUST_TH = 25`, `SCORE_UV_TH = 7`. -/
def riskScore (h : HourData) : ℕ :=
  let s : ℕ := 0
  let s := s + (if 80 < h.lembap then 2 else 0)
  let s := s + (if 27 ≤ h.suhu ∧ h.suhu ≤ 34 then 1 else 0)
  let s := s + (match h.prev with
    | some p => if 2 ≤ p - h.suhu then 2 else 0
    | none => 0)
  let s := s + (if 10 ≤ h.angin ∧ h.angin ≤ 25 then 1 else 0)
  let s := s + (if 25 < h.windgust then 1 else 0)
  let s := s + (if 8 ≤ h.hour ∧ h.hour ≤ 16 then (if 7 ≤ h.uv then 2 else 0) else 0)
  let s := s + (if 70 ≤ h.hujanProb then 2 else if 50 ≤ h.hujanProb then 1 else 0)
  let s := s + (if 1 ≤ h.rainmm then 3 else if 3/10 ≤ h.rainmm then 1 else 0)
  s

/-- The ordered reason tokens appended while scoring (same guards, same
order as `riskScore`; source lines 1129-1145). -/
def riskReasons (h : HourData) : List String :=
  let r : List String := []
  let r := r ++ (if 80 < h.lembap then ["humid"] else [])
  let r := r ++ (if 27 ≤ h.suhu ∧ h.suhu ≤ 34 then ["temp_ok"] else [])
  let r := r ++ (match h.prev with
    | some p => if 2 ≤ p - h.suhu then ["temp_drop"] else []
    | none => [])
  let r := r ++ (if 10 ≤ h.angin ∧ h.angin ≤ 25 then ["wind_ok"] else [])
  let r := r ++ (if 25 < h.windgust then ["gust"] else [])
  let r := r ++ (if 8 ≤ h.hour ∧ h.hour ≤ 16 then (if 7 ≤ h.uv then ["uv_high"] else []) else [])
  let r := r ++ (if 70 ≤ h.hujanProb then ["prob>=70"]
                 else if 50 ≤ h.hujanProb then ["prob>=50"] else [])
  let r := r ++ (if 1 ≤ h.rainmm then ["rained_now"]
                 else if 3/10 ≤ h.rainmm then ["drizzle"] else [])
  r

/-- Initial status from the score (source lines 1156-1158): `score ≥ 7` gives
Rawan, `score ≥ 4` gives Waspada, otherwise Aman. -/
def initialStatus (score : ℕ) : Status :=
  if 7 ≤ score then .Rawan else if 4 ≤ score then .Waspada else .Aman

/-- StatusResolver rule 1 (source lines 1160-1166): an advisory keyword match
forces Rawan. -/
def stepBmk (warn : Bool) (s : Status) : Status :=
  if warn then .Rawan else s

/-- StatusResolver rule 2 (source lines 1168-1172): if not already Rawan,
rain of at least `RAWAN_RAIN_MM = 6.0` forces Rawan, else rain of at least
`WASP_RAIN_MM = 2.0` sets Waspada. -/
def stepRain (rain : ℚ) (s : Status) : Status :=
  if s ≠ .Rawan then
    (if 6 ≤ rain then .Rawan else if 2 ≤ rain then .Waspada else s)
  else s

/-- StatusResolver rule 3 (source lines 1173-1175): if not already Rawan, a
3-hour accumulation of at least `ACC3_RAWAN_MM = 15.0` or a 6-hour
accumulation of at least `ACC6_RAWAN_MM = 30.0` sets Waspada. -/
def stepAcc (a3 a6 : ℚ) (s : Status) : Status :=
  if s ≠ .Rawan then (if 15 ≤ a3 ∨ 30 ≤ a6 then .Waspada else s) else s

/-- StatusResolver rule 6 (source lines 1201-1204): sustained wind of at
least `WIND_DANGER = 25` forces Rawan; else, if not already Rawan, wind of at
least `WIND_WARN = 15` sets Waspada. -/
def stepWind (w : ℚ) (s : Status) : Status :=
  if 25 ≤ w then .Rawan
  else if s ≠ .Rawan ∧ 15 ≤ w then .Waspada else s

/-- StatusResolver rule 7 (source lines 1205-1208): a gust of at least
`GUST_DANGER = 45` forces Rawan; else, if not already Rawan, a gust of at
least `GUST_WARN = 30` sets Waspada. -/
def stepGust (g : ℚ) (s : Status) : Status :=
  if 45 ≤ g then .Rawan
  else if s ≠ .Rawan ∧ 30 ≤ g then .Waspada else s

/-- The final status of one hour: the score-derived initial status pushed
through the override chain in source order (advisory, rain, accumulation,
wind, gust; the heat/humidity and deviation recordings between rules 3 and 6
do not touch the status). -/
def finalStatus (h : HourData) : Status :=
  stepGust h.windgust
    (stepWind h.angin
      (stepAcc h.acc3 h.acc6
        (stepRain h.rainmm
          (stepBmk h.bmkWarn (initialStatus (riskScore h))))))

/-- Numeric rank of a status, for the order Aman < Waspada < Rawan. -/
def Status.rank : Status → ℕ
  | .Aman => 0
  | .Waspada => 1
  | .Rawan => 2

/-- The order Aman ≤ Waspada ≤ Rawan on statuses. -/
def statusLe (a b : Status) : Prop := a.rank ≤ b.rank

instance (a b : Status) : Decidable (statusLe a b) := by
  unfold statusLe; infer_instance

/-! ### Deviation analyzer (source lines 1057-1097 and 1184-1199) -/

/-- The 3-value deviation window at index `t` (source lines 1060-1067): the
values `prec[t+j]` for `j = 0, 1, 2` that fall inside the series. -/
def devWindow (prec : List ℚ) (t : ℕ) : List ℚ :=
  [0, 1, 2].filterMap fun j => prec.get? (t + j)

/-- Population variance, the square of `statistics.pstdev`: the mean of the
squared deviations from the mean, with divisor `n` (the sample count, not
`n - 1`). -/
def pvariance (xs : List ℚ) : ℚ :=
  let n : ℚ := xs.length
  let mean := xs.sum / n
  ((xs.map fun x => (x - mean) ^ 2).sum) / n

/-- The squared deterministic deviation at index `t` (source lines
1057-1073): the population variance of the 3-value window when at least two
values are available, else `0`.  The source stores `pstdev`, the square root
of this value; all downstream uses are threshold comparisons, which commute
with squaring. -/
def devVarAt (prec : List ℚ) (t : ℕ) : ℚ :=
  if 2 ≤ (devWindow prec t).length then pvariance (devWindow prec t) else 0

/-- The per-member 3-hour accumulated sum of the ensemble path (source lines
1079-1089): for one member, the sum of its rain values over the same window,
missing indices contributing nothing. -/
def memberSum (mem : List ℚ) (t : ℕ) : ℚ :=
  ((([0, 1, 2].filterMap fun j => mem.get? (t + j))).sum)

/-- The squared ensemble deviation at index `t` (source lines 1075-1097):
the population variance across the members' accumulated sums when at least
two members exist, else `0`. -/
def devEnsVarAt (members : List (List ℚ)) (t : ℕ) : ℚ :=
  let sums := members.map fun mem => memberSum mem t
  if 2 ≤ sums.length then pvariance sums else 0

/-- Deviation level from the squared deviation: the source compares the
standard deviation against `DEV_DANGER_TH = 1.0` and `DEV_WARN_TH = 0.7`,
which on the variance are the squared thresholds `1` and `0.49`. -/
def devLevelOfVar (v : ℚ) : DevLevel :=
  if 1 ≤ v then .DANGER else if 49/100 ≤ v then .WARN else .NONE

/-- The deviation warn/danger accumulators touched by one hour of one
location: the location's warn/danger time-lists (the space-joined strings of
the source, modelled as lists of the appended timestamp strings) and the
global per-hour warn/danger counts keyed by the slot's timestamp. -/
structure DevAgg where
  warnTimes : List String
  dangerTimes : List String
  aggWarn : String → ℕ
  aggDanger : String → ℕ

/-- One source of deviation flags for one hour (either of the two
structurally identical blocks at source lines 1185-1190 and 1193-1199):
deviation at least `1.0` appends the hour to the danger list and increments
the global danger count, else deviation at least `0.7` does the same on the
warn side.  `dev` is the squared deviation, compared against the squared
thresholds. -/
def devFlagOne (dev : ℚ) (t : String) (s : DevAgg) : DevAgg :=
  if 1 ≤ dev then
    { s with dangerTimes := s.dangerTimes ++ [t],
             aggDanger := fun u => if u = t then s.aggDanger u + 1 else s.aggDanger u }
  else if 49/100 ≤ dev then
    { s with warnTimes := s.warnTimes ++ [t],
             aggWarn := fun u => if u = t then s.aggWarn u + 1 else s.aggWarn u }
  else s

/-- Both deviation sources applied in source order for one hour: first the
deterministic flags (lines 1185-1190), then the ensemble flags (lines
1193-1199), on the same accumulators. -/
def devFlagBoth (devm devens : ℚ) (t : String) (s : DevAgg) : DevAgg :=
  devFlagOne devens t (devFlagOne devm t s)

/-! ### Hourly rain-category recording (source lines 1099-1115) -/

/-- The amount fed to `classify_rain_mm` for the per-category records
(source lines 1100-1102): the current-hour rain if above `0.0001`, else the
3-hour accumulation if above `0.0001`, else the 6-hour accumulation. -/
def rainRefForCat (rainmm acc3 acc6 : ℚ) : ℚ :=
  if 1/10000 < rainmm then rainmm
  else if 1/10000 < acc3 then acc3
  else acc6

/-- The rain category recorded for one hour. -/
def hourRainCat (rainmm acc3 acc6 : ℚ) : RainCat :=
  classify_rain_mm (rainRefForCat rainmm acc3 acc6)

/-- The per-category accumulators touched by the recording step: the
location's per-category time-lists, the global per-hour per-category counts,
and the hour's reason-token list. -/
structure RainCatAgg where
  gerimisTimes : List String
  ringanTimes : List String
  sedangTimes : List String
  derasTimes : List String
  aggGerimis : String → ℕ
  aggRingan : String → ℕ
  aggSedang : String → ℕ
  aggDeras : String → ℕ
  reasons : List String

/-- The recording step (source lines 1103-1115): the classified category
appends the hour to its time-list, increments its global count at the slot
and appends its reason token; the NONE category records nothing. -/
def recordRainCat (rainmm acc3 acc6 : ℚ) (t : String) (s : RainCatAgg) : RainCatAgg :=
  match hourRainCat rainmm acc3 acc6 with
  | .GERIMIS =>
    { s with gerimisTimes := s.gerimisTimes ++ [t],
             aggGerimis := fun u => if u = t then s.aggGerimis u + 1 else s.aggGerimis u,
             reasons := s.reasons ++ ["rain_gerimis"] }
  | .RINGAN =>
    { s with ringanTimes := s.ringanTimes ++ [t],
             aggRingan := fun u => if u = t then s.aggRingan u + 1 else s.aggRingan u,
             reasons := s.reasons ++ ["rain_ringan"] }
  | .SEDANG =>
    { s with sedangTimes := s.sedangTimes ++ [t],
             aggSedang := fun u => if u = t then s.aggSedang u + 1 else s.aggSedang u,
             reasons := s.reasons ++ ["rain_sedang"] }
  | .DERAS =>
    { s with derasTimes := s.derasTimes ++ [t],
             aggDeras := fun u => if u = t then s.aggDeras u + 1 else s.aggDeras u,
             reasons := s.reasons ++ ["rain_keras"] }
  | .NONE => s

/-! ### Cross-location aggregation (source lines 1032-1034, 1222-1228 and
1404-1424) -/

/-- Global per-slot status counts (`AGG_AMAN` / `AGG_WASP` / `AGG_RAWAN`),
keyed by the slot's timestamp. -/
structure StatusCounts where
  aman : String → ℕ
  wasp : String → ℕ
  rawan : String → ℕ

/-- All-zero counts, the state before any location is processed. -/
def StatusCounts.init : StatusCounts :=
  { aman := fun _ => 0, wasp := fun _ => 0, rawan := fun _ => 0 }

/-- The per-hour status count update (source lines 1222-1228): exactly one
of the three counters at the slot is incremented, according to the final
status. -/
def incrStatus (c : StatusCounts) (t : String) : Status → StatusCounts
  | .Aman => { c with aman := fun u => if u = t then c.aman u + 1 else c.aman u }
  | .Waspada => { c with wasp := fun u => if u = t then c.wasp u + 1 else c.wasp u }
  | .Rawan => { c with rawan := fun u => if u = t then c.rawan u + 1 else c.rawan u }

/-- One location's fetched series: its time axis zipped with the per-hour
data extracted at the matching index. -/
structure LocAxis where
  axis : List (String × HourData)

/-- Index lookup of a slot inside a location's time axis
(`times_jq.index(TIME)` at source line 1033: the first matching entry, or a
`ValueError` that skips the slot, modelled by `none`). -/
def lookupHour (ax : List (String × HourData)) (t : String) : Option HourData :=
  (ax.find? fun p => decide (p.1 = t)).map (·.2)

/-- Processing of one location (the hour loop at source lines 1032-1228,
restricted to the status counters): each of the 24 slots that occurs in the
location's axis contributes its final status to the global counts. -/
def procLoc (times : List String) (c : StatusCounts) (L : LocAxis) : StatusCounts :=
  times.foldl
    (fun c t =>
      match lookupHour L.axis t with
      | none => c
      | some h => incrStatus c t (finalStatus h))
    c

/-- Processing of a run: all locations folded over the global counts in
caller order. -/
def runAgg (times : List String) (locs : List LocAxis) : StatusCounts :=
  locs.foldl (procLoc times) StatusCounts.init

/-- The "best safe hours" threshold (source line 1415):
`int(processed_count * THRESH_PCT + 0.999)` with `THRESH_PCT = 0.8`. -/
def bestSafeThreshold (n : ℕ) : ℤ :=
  ⌊(n : ℚ) * (8/10) + 999/1000⌋

/-- The per-slot "best safe hours" test (source line 1415): the run has at
least one processed location and the slot's Aman count reaches the
threshold. -/
def bestSafeTest (n a : ℕ) : Bool :=
  decide (0 < n) && decide (bestSafeThreshold n ≤ (a : ℤ))

/-- The per-slot "any risky hours" test (source line 1418): the slot's Rawan
count is strictly greater than one. -/
def anyRiskyTest (r : ℕ) : Bool :=
  decide (1 < r)

/-! ### Previous-temperature store (source lines 554-577)

The file content and the keys/values are embedded as `List Char`; the store
itself is the association list of its entries in insertion order (a Python
`dict` preserves insertion order, and assignment to an existing key keeps
its position). -/

/-- The whitespace characters stripped by `str.strip` that can occur here. -/
def isSpaceChar (c : Char) : Bool :=
  c = ' ' || c = '\t' || c = '\n' || c = '\r'

/-- `str.strip()`: drop whitespace from both ends. -/
def strip (l : List Char) : List Char :=
  (((l.dropWhile isSpaceChar).reverse).dropWhile isSpaceChar).reverse

/-- Splitting the file content into lines at the newline character. -/
def splitLines : List Char → List (List Char)
  | [] => [[]]
  | c :: cs =>
    if c = '\n' then [] :: splitLines cs
    else
      match splitLines cs with
      | [] => [[c]]
      | l :: ls => (c :: l) :: ls

/-- `s.split("|", 1)`: the text before the first pipe and the text after it,
or `none` when the line holds no pipe (the `len(parts) == 2` test of the
source). -/
def splitFirstPipe : List Char → Option (List Char × List Char)
  | [] => none
  | c :: cs =>
    if c = '|' then some ([], cs)
    else (splitFirstPipe cs).map fun p => (c :: p.1, p.2)

/-- Parsing one line of the store file (source lines 559-566): strip the
line, skip it when empty, split at the first pipe, strip both parts and keep
the pair when both are nonempty. -/
def parseLine (l : List Char) : Option (List Char × List Char) :=
  let s := strip l
  if s = [] then none
  else
    match splitFirstPipe s with
    | none => none
    | some (k, v) =>
      let k := strip k
      let v := strip v
      if k ≠ [] ∧ v ≠ [] then some (k, v) else none

/-- Assignment `data[key] = val` on the association list: replace the value
of an existing key in place, else append the new pair. -/
def upsert : List (List Char × List Char) → List Char → List Char → List (List Char × List Char)
  | [], k, v => [(k, v)]
  | (k0, v0) :: rest, k, v =>
    if k0 = k then (k0, v) :: rest else (k0, v0) :: upsert rest k v

/-- `load_prev_temp_file` (source lines 554-569), applied to the file
content: every line is parsed and the valid pairs are assigned in order into
an initially empty map. -/
def loadStore (content : List Char) : List (List Char × List Char) :=
  (splitLines content).foldl
    (fun acc line =>
      match parseLine line with
      | some (k, v) => upsert acc k v
      | none => acc)
    []

/-- `save_prev_temp_file` (source lines 571-577): one `key|value` line per
entry, in store order. -/
def saveStore : List (List Char × List Char) → List Char
  | [] => []
  | (k, v) :: rest => k ++ '|' :: v ++ '\n' :: saveStore rest

/-- A key fit for the store: nonempty, already stripped, holding neither a
pipe nor a newline. -/
def CleanKey (k : List Char) : Prop :=
  k ≠ [] ∧ strip k = k ∧ '|' ∉ k ∧ '\n' ∉ k

/-- A value fit for the store: nonempty, already stripped, holding no
newline. -/
def CleanVal (v : List Char) : Prop :=
  v ≠ [] ∧ strip v = v ∧ '\n' ∉ v

instance (k : List Char) : Decidable (CleanKey k) := by
  unfold CleanKey; infer_instance

instance (v : List Char) : Decidable (CleanVal v) := by
  unfold CleanVal; infer_instance

/-! ### Concrete samples used by the spec's testable properties -/

/-- The `RiskScorer` sample of the spec: humidity 85, temperature 30, wind
20, gust 10, UV 3, hour 10, probability 40, rain 0, no prior temperature. -/
def c2sample : HourData :=
  { suhu := 30, hujanProb := 40, rainmm := 0, lembap := 85, angin := 20,
    windgust := 10, uv := 3, acc3 := 0, acc6 := 0, hour := 10,
    prev := none, bmkWarn := false }

/-- The `StatusResolver` wind sample of the spec: sustained wind 26 km/h
with an otherwise-zero score. -/
def c1sample : HourData :=
  { suhu := 0, hujanProb := 0, rainmm := 0, lembap := 0, angin := 26,
    windgust := 0, uv := 0, acc3 := 0, acc6 := 0, hour := 0,
    prev := none, bmkWarn := false }

/-- Empty deviation accumulators. -/
def DevAgg.init : DevAgg :=
  { warnTimes := [], dangerTimes := [], aggWarn := fun _ => 0, aggDanger := fun _ => 0 }

/-- Empty rain-category accumulators. -/
def RainCatAgg.init : RainCatAgg :=
  { gerimisTimes := [], ringanTimes := [], sedangTimes := [], derasTimes := [],
    aggGerimis := fun _ => 0, aggRingan := fun _ => 0, aggSedang := fun _ => 0,
    aggDeras := fun _ => 0, reasons := [] }

/-! ## Theorems -/

/-- Claim C3 is false at the boundary: the source keeps `m = 0.0001` in the
NONE category (`if m <= 0.0001`), while the claim assigns every
`0.0001 ≤ m < 1.0` to GERIMIS. -/
theorem claim_C3_counterexample :
    classify_rain_mm (1/10000) = RainCat.NONE
      ∧ classify_rain_mm (1/10000) ≠ RainCat.GERIMIS
      ∧ (1/10000 : ℚ) ≤ 1/10000 ∧ (1/10000 : ℚ) < 1 := by
  refine ⟨by norm_num [classify_rain_mm], ?_, by norm_num, by norm_num⟩
  rw [show classify_rain_mm (1/10000) = RainCat.NONE from by norm_num [classify_rain_mm]]
  simp

/-- Claim C3 (amended at the 0.0001 boundary): the rain-category classifier
maps `None`/unparsable to NONE, returns NONE when `m ≤ 0.0001`, GERIMIS when
`0.0001 < m < 1.0`, RINGAN when `1.0 ≤ m < 2.5`, SEDANG when
`2.5 ≤ m < 7.6` and DERAS otherwise; it is total, and `0` maps to NONE,
`0.5` to GERIMIS, `1.5` to RINGAN, `5.0` to SEDANG, `10.0` to DERAS. -/
theorem claim_C3 : ∀ m : ℚ,
    (classify_rain_mm m = RainCat.NONE ↔ m ≤ 1/10000)
    ∧ (classify_rain_mm m = RainCat.GERIMIS ↔ 1/10000 < m ∧ m < 1)
    ∧ (classify_rain_mm m = RainCat.RINGAN ↔ 1 ≤ m ∧ m < 5/2)
    ∧ (classify_rain_mm m = RainCat.SEDANG ↔ 5/2 ≤ m ∧ m < 38/5)
    ∧ (classify_rain_mm m = RainCat.DERAS ↔ 38/5 ≤ m)
    ∧ classifyRainOpt none = RainCat.NONE
    ∧ classify_rain_mm 0 = RainCat.NONE
    ∧ classify_rain_mm (1/2) = RainCat.GERIMIS
    ∧ classify_rain_mm (3/2) = RainCat.RINGAN
    ∧ classify_rain_mm 5 = RainCat.SEDANG
    ∧ classify_rain_mm 10 = RainCat.DERAS := by
  intro m
  refine ⟨?_, ?_, ?_, ?_, ?_,
    by norm_num [classifyRainOpt, classify_rain_mm],
    by norm_num [classify_rain_mm], by norm_num [classify_rain_mm],
    by norm_num [classify_rain_mm], by norm_num [classify_rain_mm],
    by norm_num [classify_rain_mm]⟩ <;>
  · unfold classify_rain_mm
    split_ifs with h1 h2 h3 h4 <;>
      constructor <;>
      intro hh <;>
      first
        | rfl
        | linarith
        | (constructor <;> linarith)
        | (exfalso; rcases hh with ⟨hA, hB⟩; linarith)
        | cases hh

/-- A positive reference rain value is in fact at least 0.3 (each branch of
the selection is guarded by 0.3 or 0.6, and the fallback is 0). -/
lemma skyRef_pos_ge (r a3 a6 : ℚ) (h : 0 < skyRef r a3 a6) :
    3/10 ≤ skyRef r a3 a6 := by
  unfold skyRef at h ⊢
  split_ifs at h ⊢ <;> linarith

/-- On arguments above 0.0001, the rain branch of the sky classifier agrees
with `classify_rain_mm` composed with the HUJAN relabelling. -/
lemma rainBreak_eq_skyOfRainCat (ref : ℚ) (h : 1/10000 < ref) :
    rainBreak ref = skyOfRainCat (classify_rain_mm ref) := by
  unfold rainBreak classify_rain_mm skyOfRainCat
  split_ifs <;> first | rfl | linarith

/-- The four direct-rain labels are exactly the image of the rain branch. -/
lemma isRainSky_rainBreak (ref : ℚ) : isRainSky (rainBreak ref) = true := by
  unfold rainBreak isRainSky
  split_ifs <;> rfl

/-- Claim C4: the sky classifier picks its reference rain value as the
current-hour rain if at least 0.3 mm, else the 3-hour accumulation if at
least 0.3 mm, else the 6-hour accumulation if at least 0.6 mm, else 0; a
positive reference forces one of the four HUJAN rain labels through the
`classify_rain_mm` breakpoints, overriding the probability, UV and humidity
rules; and the spec's three samples evaluate to HUJAN_SEDANG,
HUJAN_POTENSIAL and CERAH. -/
theorem claim_C4 : ∀ (p r a3 a6 hm u : ℚ) (hr : Option ℤ),
    skyRef r a3 a6 =
      (if 3/10 ≤ r then r else if 3/10 ≤ a3 then a3 else if 3/5 ≤ a6 then a6 else 0)
    ∧ (0 < skyRef r a3 a6 →
        classify_sky p r a3 a6 hm u hr = skyOfRainCat (classify_rain_mm (skyRef r a3 a6))
        ∧ isRainSky (classify_sky p r a3 a6 hm u hr) = true)
    ∧ classify_sky 0 5 0 0 50 0 (some 12) = Sky.HUJAN_SEDANG
    ∧ classify_sky 70 0 0 0 50 0 (some 12) = Sky.HUJAN_POTENSIAL
    ∧ classify_sky 0 0 0 0 50 8 (some 12) = Sky.CERAH := by
  intro p r a3 a6 hm u hr
  refine ⟨rfl, ?_, ?_, ?_, ?_⟩
  · intro hpos
    have h03 : 3/10 ≤ skyRef r a3 a6 := skyRef_pos_ge r a3 a6 hpos
    have hcond : (1/10000 : ℚ) < skyRef r a3 a6 := by linarith
    have hcls : classify_sky p r a3 a6 hm u hr = rainBreak (skyRef r a3 a6) := by
      unfold classify_sky
      rw [if_pos hcond]
    rw [hcls, rainBreak_eq_skyOfRainCat _ hcond]
    refine ⟨rfl, ?_⟩
    rw [← rainBreak_eq_skyOfRainCat _ hcond, isRainSky_rainBreak]
  · norm_num [classify_sky, skyRef, rainBreak]
  · norm_num [classify_sky, skyRef, rainBreak]
  · norm_num [classify_sky, skyRef]

/-- Witness for claim C4 at the spec's first sample: rain 5.0 with all other
rain signals zero gives a positive reference, and the classifier lands on
the relabelled `classify_rain_mm` result. -/
theorem claim_C4_witness :
    (0 : ℚ) < skyRef 5 0 0
    ∧ (classify_sky 0 5 0 0 50 0 (some 12)
        = skyOfRainCat (classify_rain_mm (skyRef 5 0 0))) := by
  have h : (0 : ℚ) < skyRef 5 0 0 := by norm_num [skyRef]
  exact ⟨h, ((claim_C4 0 5 0 0 50 0 (some 12)).2.1 h).1⟩

/-- Claim C2: the risk score of an hour decomposes as the sum of the eight
contributions, evaluated on the stated conditions in the stated fixed order,
with the reason tokens appended in the same order; and the spec's sample
(humidity 85, temp 30, wind 20, gust 10, uv 3, hour 10, prob 40, rain 0, no
prior temperature) scores 4 and resolves to Waspada. -/
theorem claim_C2 : ∀ h : HourData,
    riskScore h =
      (if 80 < h.lembap then 2 else 0)
      + (if 27 ≤ h.suhu ∧ h.suhu ≤ 34 then 1 else 0)
      + (match h.prev with
          | some p => if 2 ≤ p - h.suhu then 2 else 0
          | none => 0)
      + (if 10 ≤ h.angin ∧ h.angin ≤ 25 then 1 else 0)
      + (if 25 < h.windgust then 1 else 0)
      + (if 8 ≤ h.hour ∧ h.hour ≤ 16 then (if 7 ≤ h.uv then 2 else 0) else 0)
      + (if 70 ≤ h.hujanProb then 2 else if 50 ≤ h.hujanProb then 1 else 0)
      + (if 1 ≤ h.rainmm then 3 else if 3/10 ≤ h.rainmm then 1 else 0)
    ∧ riskReasons h =
      (if 80 < h.lembap then ["humid"] else [])
      ++ (if 27 ≤ h.suhu ∧ h.suhu ≤ 34 then ["temp_ok"] else [])
      ++ (match h.prev with
          | some p => if 2 ≤ p - h.suhu then ["temp_drop"] else []
          | none => [])
      ++ (if 10 ≤ h.angin ∧ h.angin ≤ 25 then ["wind_ok"] else [])
      ++ (if 25 < h.windgust then ["gust"] else [])
      ++ (if 8 ≤ h.hour ∧ h.hour ≤ 16 then (if 7 ≤ h.uv then ["uv_high"] else []) else [])
      ++ (if 70 ≤ h.hujanProb then ["prob>=70"]
          else if 50 ≤ h.hujanProb then ["prob>=50"] else [])
      ++ (if 1 ≤ h.rainmm then ["rained_now"]
          else if 3/10 ≤ h.rainmm then ["drizzle"] else [])
    ∧ riskScore c2sample = 4
    ∧ finalStatus c2sample = Status.Waspada := by
  intro h
  refine ⟨?_, ?_, ?_, ?_⟩
  · unfold riskScore
    dsimp only
    omega
  · unfold riskReasons
    dsimp only
    simp [List.append_assoc]
  · norm_num [riskScore, c2sample]
  · norm_num [finalStatus, stepBmk, stepRain, stepAcc, stepWind, stepGust,
      initialStatus, riskScore, c2sample]

/-- Each status step of the override chain never lowers the status. -/
lemma statusLe_stepBmk (b : Bool) (s : Status) : statusLe s (stepBmk b s) := by
  unfold stepBmk
  cases s <;> split_ifs <;> decide

/-- Rain-volume rule: upgrade only. -/
lemma statusLe_stepRain (r : ℚ) (s : Status) : statusLe s (stepRain r s) := by
  unfold stepRain
  cases s <;> split_ifs <;> first | decide | simp_all

/-- Accumulation rule: upgrade only. -/
lemma statusLe_stepAcc (a3 a6 : ℚ) (s : Status) : statusLe s (stepAcc a3 a6 s) := by
  unfold stepAcc
  cases s <;> split_ifs <;> first | decide | simp_all

/-- Sustained-wind rule: upgrade only. -/
lemma statusLe_stepWind (w : ℚ) (s : Status) : statusLe s (stepWind w s) := by
  unfold stepWind
  cases s <;> split_ifs <;> first | decide | simp_all

/-- Gust rule: upgrade only. -/
lemma statusLe_stepGust (g : ℚ) (s : Status) : statusLe s (stepGust g s) := by
  unfold stepGust
  cases s <;> split_ifs <;> first | decide | simp_all

/-- Transitivity of the status order. -/
lemma statusLe_trans {a b c : Status} (h1 : statusLe a b) (h2 : statusLe b c) :
    statusLe a c := Nat.le_trans h1 h2

/-- Claim C1: each override rule of the status chain (advisory, rain,
accumulation, wind, gust) can only upgrade the status along
Aman < Waspada < Rawan, so the final status is always at least the
score-derived initial status; and sustained wind 26 km/h with an
otherwise-zero score yields final status Rawan. -/
theorem claim_C1 : ∀ (h : HourData) (s : Status),
    statusLe s (stepBmk h.bmkWarn s)
    ∧ statusLe s (stepRain h.rainmm s)
    ∧ statusLe s (stepAcc h.acc3 h.acc6 s)
    ∧ statusLe s (stepWind h.angin s)
    ∧ statusLe s (stepGust h.windgust s)
    ∧ statusLe (initialStatus (riskScore h)) (finalStatus h)
    ∧ riskScore c1sample = 0
    ∧ initialStatus (riskScore c1sample) = Status.Aman
    ∧ finalStatus c1sample = Status.Rawan := by
  intro h s
  refine ⟨statusLe_stepBmk _ _, statusLe_stepRain _ _, statusLe_stepAcc _ _ _,
    statusLe_stepWind _ _, statusLe_stepGust _ _, ?_, ?_, ?_, ?_⟩
  · unfold finalStatus
    exact statusLe_trans (statusLe_stepBmk _ _)
      (statusLe_trans (statusLe_stepRain _ _)
        (statusLe_trans (statusLe_stepAcc _ _ _)
          (statusLe_trans (statusLe_stepWind _ _) (statusLe_stepGust _ _))))
  · norm_num [riskScore, c1sample]
  · norm_num [riskScore, initialStatus, c1sample]
  · norm_num [finalStatus, stepBmk, stepRain, stepAcc, stepWind, stepGust,
      initialStatus, riskScore, c1sample]

/-- Claim C10: the classified amount behind the per-category records is the
current-hour rain only when it exceeds 0.0001 mm, else the 3-hour
accumulation when it exceeds 0.0001 mm, else the 6-hour accumulation; in
particular an hour with zero current rain but a 0.5 mm 3-hour accumulation
is recorded as GERIMIS (time-list, global count and reason token) even
though its own rain classifies as NONE. -/
theorem claim_C10 : ∀ (r a3 a6 : ℚ) (t : String) (s : RainCatAgg),
    (1/10000 < r → hourRainCat r a3 a6 = classify_rain_mm r)
    ∧ (r ≤ 1/10000 → 1/10000 < a3 → hourRainCat r a3 a6 = classify_rain_mm a3)
    ∧ (r ≤ 1/10000 → a3 ≤ 1/10000 → hourRainCat r a3 a6 = classify_rain_mm a6)
    ∧ hourRainCat 0 (1/2) 0 = RainCat.GERIMIS
    ∧ classify_rain_mm 0 = RainCat.NONE
    ∧ (recordRainCat 0 (1/2) 0 t s).gerimisTimes = s.gerimisTimes ++ [t]
    ∧ (recordRainCat 0 (1/2) 0 t s).aggGerimis t = s.aggGerimis t + 1
    ∧ (recordRainCat 0 (1/2) 0 t s).reasons = s.reasons ++ ["rain_gerimis"] := by
  intro r a3 a6 t s
  have hcat : hourRainCat 0 (1/2) 0 = RainCat.GERIMIS := by
    norm_num [hourRainCat, rainRefForCat, classify_rain_mm]
  have hrec : recordRainCat 0 (1/2) 0 t s =
      { s with gerimisTimes := s.gerimisTimes ++ [t],
               aggGerimis := fun u => if u = t then s.aggGerimis u + 1 else s.aggGerimis u,
               reasons := s.reasons ++ ["rain_gerimis"] } := by
    unfold recordRainCat
    rw [hcat]
  refine ⟨?_, ?_, ?_, hcat, by norm_num [classify_rain_mm], ?_, ?_, ?_⟩
  · intro h1
    unfold hourRainCat rainRefForCat
    rw [if_pos h1]
  · intro h1 h2
    unfold hourRainCat rainRefForCat
    rw [if_neg (by linarith), if_pos h2]
  · intro h1 h2
    unfold hourRainCat rainRefForCat
    rw [if_neg (by linarith), if_neg (by linarith)]
  · rw [hrec]
  · rw [hrec]; simp
  · rw [hrec]

/-- Witness for claim C10: at zero current rain and a 0.5 mm 3-hour
accumulation, the recorded category is that of the accumulation. -/
theorem claim_C10_witness :
    (0 : ℚ) ≤ 1/10000 ∧ (1/10000 : ℚ) < 1/2
    ∧ hourRainCat 0 (1/2) 0 = classify_rain_mm (1/2) := by
  exact ⟨by norm_num, by norm_num,
    (claim_C10 0 (1/2) 0 ("t") RainCatAgg.init).2.1 (by norm_num) (by norm_num)⟩

/-- Claim C6: when the deterministic and the ensemble deviation of one hour
both reach the danger threshold, the hour's slot count goes up by 2 and the
hour is appended twice to the location's danger time-list; the analogous
statement holds for the warn band.  Deviations are carried as squared values
(population variance), so the stddev thresholds 1.0 and 0.7 appear squared
as 1 and 0.49. -/
theorem claim_C6 : ∀ (devm devens : ℚ) (t : String) (s : DevAgg),
    (1 ≤ devm → 1 ≤ devens →
      (devFlagBoth devm devens t s).aggDanger t = s.aggDanger t + 2
      ∧ (devFlagBoth devm devens t s).dangerTimes = s.dangerTimes ++ [t, t]
      ∧ (devFlagBoth devm devens t s).aggWarn t = s.aggWarn t
      ∧ (devFlagBoth devm devens t s).warnTimes = s.warnTimes)
    ∧ (49/100 ≤ devm → devm < 1 → 49/100 ≤ devens → devens < 1 →
      (devFlagBoth devm devens t s).aggWarn t = s.aggWarn t + 2
      ∧ (devFlagBoth devm devens t s).warnTimes = s.warnTimes ++ [t, t]
      ∧ (devFlagBoth devm devens t s).aggDanger t = s.aggDanger t
      ∧ (devFlagBoth devm devens t s).dangerTimes = s.dangerTimes) := by
  intro devm devens t s
  constructor
  · intro hm he
    unfold devFlagBoth devFlagOne
    split_ifs <;>
      first
        | (exfalso; linarith)
        | exact ⟨by simp, by simp, rfl, rfl⟩
  · intro hm1 hm2 he1 he2
    unfold devFlagBoth devFlagOne
    split_ifs <;>
      first
        | (exfalso; linarith)
        | exact ⟨by simp, by simp, rfl, rfl⟩

/-- Witness for claim C6: squared deviations 2 (danger on both sources) and
one half (warn on both sources) at one slot. -/
theorem claim_C6_witness :
    ((1 : ℚ) ≤ 2
      ∧ (devFlagBoth 2 2 ("07:00") DevAgg.init).aggDanger ("07:00")
          = DevAgg.init.aggDanger ("07:00") + 2)
    ∧ ((49/100 : ℚ) ≤ 1/2 ∧ (1/2 : ℚ) < 1
      ∧ (devFlagBoth (1/2) (1/2) ("07:00") DevAgg.init).aggWarn ("07:00")
          = DevAgg.init.aggWarn ("07:00") + 2) := by
  constructor
  · exact ⟨by norm_num,
      ((claim_C6 2 2 ("07:00") DevAgg.init).1 (by norm_num) (by norm_num)).1⟩
  · exact ⟨by norm_num, by norm_num,
      ((claim_C6 (1/2) (1/2) ("07:00") DevAgg.init).2
        (by norm_num) (by norm_num) (by norm_num) (by norm_num)).1⟩

/-- Comparing a standard deviation against a nonnegative threshold is the
same as comparing the variance against the squared threshold; this justifies
carrying deviations as squared values throughout. -/
lemma sqrt_threshold_iff (v c : ℚ) (hv : 0 ≤ v) (hc : 0 ≤ c) :
    ((c : ℝ) ≤ Real.sqrt (v : ℝ)) ↔ ((c : ℚ) ^ 2 ≤ v) := by
  rw [Real.le_sqrt (by exact_mod_cast hc) (by exact_mod_cast hv)]
  constructor
  · intro h
    exact_mod_cast h
  · intro h
    exact_mod_cast h

/-- The deviation window is the 3-value slice `[t, t+1, t+2]` of the series,
clipped to the series length. -/
lemma devWindow_eq_drop_take (prec : List ℚ) (t : ℕ) :
    devWindow prec t = (prec.drop t).take 3 := by
  have hget : ∀ j : ℕ, prec.get? (t + j) = (prec.drop t).get? j := by
    intro j
    rw [List.get?_drop]
  unfold devWindow
  rw [show ([0, 1, 2] : List ℕ).filterMap (fun j => prec.get? (t + j))
        = ([0, 1, 2] : List ℕ).filterMap (fun j => (prec.drop t).get? j) from by
      simp only [hget]]
  rcases prec.drop t with _ | ⟨a, _ | ⟨b, _ | ⟨c, d⟩⟩⟩ <;>
    simp [List.filterMap_cons]

/-- Claim C5: the deterministic deviation of an hour is computed on the
window `[t, t+1, t+2]` clipped to the series, as the population standard
deviation (divisor = sample count) when at least two values are available
and as 0 otherwise, and classifies as NONE / WARN / DANGER below 0.7, in
[0.7, 1.0) and from 1.0 on; in particular the window `[0, 0, 6]` has
population variance 8, i.e. population stddev √8 ≈ 2.828 (strictly between
2.828 and 2.829), and classifies as DANGER.  Deviations are carried squared,
so the thresholds appear as 0.49 and 1. -/
theorem claim_C5 : ∀ (prec : List ℚ) (t : ℕ) (v : ℚ),
    devWindow prec t = (prec.drop t).take 3
    ∧ (2 ≤ (devWindow prec t).length → devVarAt prec t = pvariance (devWindow prec t))
    ∧ ((devWindow prec t).length < 2 → devVarAt prec t = 0)
    ∧ (devLevelOfVar v = DevLevel.DANGER ↔ 1 ≤ v)
    ∧ (devLevelOfVar v = DevLevel.WARN ↔ 49/100 ≤ v ∧ v < 1)
    ∧ (devLevelOfVar v = DevLevel.NONE ↔ v < 49/100)
    ∧ devWindow [0, 0, 6] 0 = [0, 0, 6]
    ∧ pvariance [0, 0, 6] = 8
    ∧ devLevelOfVar (devVarAt [0, 0, 6] 0) = DevLevel.DANGER
    ∧ ((2828/1000 : ℚ) ^ 2 < 8 ∧ (8 : ℚ) < (2829/1000) ^ 2) := by
  intro prec t v
  have hwin : devWindow [0, 0, 6] 0 = ([0, 0, 6] : List ℚ) := by
    unfold devWindow
    simp [List.filterMap_cons]
  have hvar : pvariance [0, 0, 6] = 8 := by
    unfold pvariance
    norm_num
  refine ⟨devWindow_eq_drop_take prec t, ?_, ?_, ?_, ?_, ?_, hwin, hvar, ?_, by norm_num⟩
  · intro hlen
    unfold devVarAt
    rw [if_pos hlen]
  · intro hlen
    unfold devVarAt
    rw [if_neg (by omega)]
  · unfold devLevelOfVar
    split_ifs <;> simp_all <;> linarith
  · unfold devLevelOfVar
    split_ifs <;> simp_all <;> first | linarith | (constructor <;> linarith)
  · unfold devLevelOfVar
    split_ifs <;> simp_all <;> linarith
  · have : devVarAt [0, 0, 6] 0 = 8 := by
      unfold devVarAt
      rw [if_pos (by rw [hwin]; norm_num), hwin, hvar]
    rw [this]
    norm_num [devLevelOfVar]

/-- Witness for claim C5 at the spec's window `[0, 0, 6]`: three values are
available, so the deviation is its population variance. -/
theorem claim_C5_witness :
    2 ≤ (devWindow [0, 0, 6] 0).length
    ∧ devVarAt [0, 0, 6] 0 = pvariance (devWindow [0, 0, 6] 0) := by
  have hlen : 2 ≤ (devWindow [0, 0, 6] 0).length := by
    simp [devWindow, List.filterMap_cons]
  exact ⟨hlen, (claim_C5 [0, 0, 6] 0 0).2.1 hlen⟩

/-- For a concrete fractional part, flooring after adding 0.999 agrees with
the ceiling. -/
lemma floor_add_eq_ceil_aux (x : ℚ) (c : ℤ) (h1 : (c : ℚ) - 1 < x) (h2 : x ≤ c)
    (h3 : (c : ℚ) ≤ x + 999/1000) (h4 : x + 999/1000 < c + 1) :
    ⌊x + 999/1000⌋ = ⌈x⌉ := by
  rw [Int.floor_eq_iff.mpr ⟨h3, h4⟩, Int.ceil_eq_iff.mpr ⟨h1, h2⟩]

/-- The source's `int(n * 0.8 + 0.999)` threshold equals `⌈n * 0.8⌉`: the
fractional part of `n * 4/5` is one of 0, 0.2, 0.4, 0.6, 0.8, and each case
lands on the ceiling. -/
lemma bestSafeThreshold_eq_ceil (n : ℕ) : bestSafeThreshold n = ⌈(n : ℚ) * (8/10)⌉ := by
  obtain ⟨q, r, hr, rfl⟩ : ∃ q r, r < 5 ∧ n = 5 * q + r :=
    ⟨n / 5, n % 5, Nat.mod_lt _ (by norm_num), (Nat.div_add_mod n 5).symm⟩
  unfold bestSafeThreshold
  have h1 : ((5 * q + r : ℕ) : ℚ) * (8/10) + 999/1000
      = ((r : ℚ) * (8/10) + 999/1000) + ((4 * q : ℤ) : ℚ) := by
    push_cast
    ring
  have h2 : ((5 * q + r : ℕ) : ℚ) * (8/10) = (r : ℚ) * (8/10) + ((4 * q : ℤ) : ℚ) := by
    push_cast
    ring
  rw [h1, Int.floor_add_int, h2, Int.ceil_add_int]
  have key : ⌊(r : ℚ) * (8/10) + 999/1000⌋ = ⌈(r : ℚ) * (8/10)⌉ := by
    interval_cases r
    · exact floor_add_eq_ceil_aux _ 0 (by norm_num) (by norm_num) (by norm_num) (by norm_num)
    · exact floor_add_eq_ceil_aux _ 1 (by norm_num) (by norm_num) (by norm_num) (by norm_num)
    · exact floor_add_eq_ceil_aux _ 2 (by norm_num) (by norm_num) (by norm_num) (by norm_num)
    · exact floor_add_eq_ceil_aux _ 3 (by norm_num) (by norm_num) (by norm_num) (by norm_num)
    · exact floor_add_eq_ceil_aux _ 4 (by norm_num) (by norm_num) (by norm_num) (by norm_num)
  rw [key]

/-- Claim C7: with at least one processed location, a slot passes the "best
safe hours" test exactly when its Aman count is at least
`⌈processedLocationCount × 0.8⌉`, and a slot passes the "any risky hours"
test exactly when its Rawan count is strictly greater than 1; with 5
locations, 4 Aman passes and 3 Aman fails. -/
theorem claim_C7 : ∀ n a r : ℕ, 0 < n →
    (bestSafeTest n a = true ↔ ⌈(n : ℚ) * (8/10)⌉ ≤ (a : ℤ))
    ∧ (anyRiskyTest r = true ↔ 1 < r)
    ∧ bestSafeTest 5 4 = true
    ∧ bestSafeTest 5 3 = false
    ∧ ⌈(5 : ℚ) * (8/10)⌉ = 4 := by
  intro n a r hn
  have h54 : bestSafeTest 5 4 = true := by
    unfold bestSafeTest bestSafeThreshold
    norm_num
  have h53 : bestSafeTest 5 3 = false := by
    unfold bestSafeTest bestSafeThreshold
    norm_num
  refine ⟨?_, by simp [anyRiskyTest], h54, h53, ?_⟩
  · unfold bestSafeTest
    rw [bestSafeThreshold_eq_ceil]
    simp [hn]
  · rw [show ((5 : ℚ) * (8/10)) = 4 from by norm_num]
    exact Int.ceil_intCast 4

/-- Witness for claim C7 at the spec's sample: 5 processed locations, Aman
count 4 at one slot and Rawan count 2 at another. -/
theorem claim_C7_witness :
    0 < 5
    ∧ bestSafeTest 5 4 = true
    ∧ (anyRiskyTest 2 = true ↔ 1 < 2) := by
  exact ⟨by norm_num, (claim_C7 5 4 2 (by norm_num)).2.2.1,
    (claim_C7 5 4 2 (by norm_num)).2.1⟩

/-- One status increment adds exactly 1 to the three-status total at its own
slot and leaves every other slot unchanged. -/
lemma incrStatus_sum (c : StatusCounts) (t t0 : String) (st : Status) :
    (incrStatus c t st).aman t0 + (incrStatus c t st).wasp t0 + (incrStatus c t st).rawan t0
      = (c.aman t0 + c.wasp t0 + c.rawan t0) + (if t0 = t then 1 else 0) := by
  cases st <;> simp only [incrStatus] <;> split_ifs <;> omega

/-- Processing one location does not touch the total of a slot outside the
iterated slot list. -/
lemma procLoc_sum_not_mem (L : LocAxis) :
    ∀ (ts : List String) (c : StatusCounts) (t : String), t ∉ ts →
    (procLoc ts c L).aman t + (procLoc ts c L).wasp t + (procLoc ts c L).rawan t
      = c.aman t + c.wasp t + c.rawan t := by
  intro ts
  induction ts with
  | nil => intro c t _; rfl
  | cons t1 ts ih =>
    intro c t hmem
    have ht1 : t ≠ t1 := fun h => hmem (h ▸ List.mem_cons_self t1 ts)
    have hts : t ∉ ts := fun h => hmem (List.mem_cons_of_mem t1 h)
    unfold procLoc at ih ⊢
    rw [List.foldl_cons]
    rcases hl : lookupHour L.axis t1 with _ | hd <;> simp only [hl]
    · exact ih c t hts
    · rw [ih (incrStatus c t1 (finalStatus hd)) t hts, incrStatus_sum, if_neg ht1]
      omega

/-- Processing one location adds exactly 1 to the three-status total of a
slot of the (duplicate-free) slot list when the slot occurs in the
location's axis, and 0 when it does not. -/
lemma procLoc_sum_mem (L : LocAxis) :
    ∀ (ts : List String), ts.Nodup → ∀ (c : StatusCounts) (t : String), t ∈ ts →
    (procLoc ts c L).aman t + (procLoc ts c L).wasp t + (procLoc ts c L).rawan t
      = (c.aman t + c.wasp t + c.rawan t)
        + (if (lookupHour L.axis t).isSome then 1 else 0) := by
  intro ts
  induction ts with
  | nil => intro _ c t hmem; cases hmem
  | cons t1 ts ih =>
    intro hnd c t hmem
    have hnd1 : t1 ∉ ts := (List.nodup_cons.mp hnd).1
    have hnd2 : ts.Nodup := (List.nodup_cons.mp hnd).2
    unfold procLoc at ih ⊢
    rw [List.foldl_cons]
    rcases List.mem_cons.mp hmem with heq | hmemts
    · subst heq
      rcases hl : lookupHour L.axis t with _ | hd <;> simp only [hl]
      · have hnot := procLoc_sum_not_mem L ts c t hnd1
        unfold procLoc at hnot
        rw [hnot]
        simp
      · have hnot := procLoc_sum_not_mem L ts (incrStatus c t (finalStatus hd)) t hnd1
        unfold procLoc at hnot
        rw [hnot, incrStatus_sum, if_pos rfl]
        simp
    · have ht1 : t ≠ t1 := fun h => hnd1 (h ▸ hmemts)
      rcases hl : lookupHour L.axis t1 with _ | hd <;> simp only [hl]
      · exact ih hnd2 c t hmemts
      · rw [ih hnd2 (incrStatus c t1 (finalStatus hd)) t hmemts, incrStatus_sum, if_neg ht1]
        omega

/-- Folding any list of locations over any starting counts adds, at a slot
of the slot list, exactly the number of locations whose axis covers it. -/
lemma foldLocs_sum (times : List String) (t : String) (hnd : times.Nodup)
    (hmem : t ∈ times) :
    ∀ (locs : List LocAxis) (c : StatusCounts),
    ((locs.foldl (procLoc times) c).aman t + (locs.foldl (procLoc times) c).wasp t
      + (locs.foldl (procLoc times) c).rawan t)
      = (c.aman t + c.wasp t + c.rawan t)
        + locs.countP (fun L => (lookupHour L.axis t).isSome) := by
  intro locs
  induction locs with
  | nil => intro c; simp
  | cons L ls ih =>
    intro c
    rw [List.foldl_cons, ih, procLoc_sum_mem L times hnd c t hmem, List.countP_cons]
    cases hb : (lookupHour L.axis t).isSome <;> simp [hb] <;> omega

/-- Claim C8: after all locations are processed, the sum of the global Aman,
Waspada and Rawan counts at a slot of the (duplicate-free) 24-slot list
equals the number of locations whose fetched time axis contains that slot;
each covered location-hour increments exactly one of the three counters. -/
theorem claim_C8 : ∀ (times : List String) (locs : List LocAxis) (t : String),
    times.Nodup → t ∈ times →
    (runAgg times locs).aman t + (runAgg times locs).wasp t + (runAgg times locs).rawan t
      = locs.countP (fun L => (lookupHour L.axis t).isSome) := by
  intro times locs t hnd hmem
  unfold runAgg
  rw [foldLocs_sum times t hnd hmem locs StatusCounts.init]
  simp [StatusCounts.init]

/-- Witness for claim C8: two slots, one location whose axis covers only the
first slot. -/
theorem claim_C8_witness :
    (["2025-01-01T00:00", "2025-01-01T01:00"] : List String).Nodup
    ∧ ("2025-01-01T00:00" : String) ∈ (["2025-01-01T00:00", "2025-01-01T01:00"] : List String)
    ∧ ((runAgg ["2025-01-01T00:00", "2025-01-01T01:00"]
          [⟨[(("2025-01-01T00:00"), c2sample)]⟩]).aman ("2025-01-01T00:00")
        + (runAgg ["2025-01-01T00:00", "2025-01-01T01:00"]
          [⟨[(("2025-01-01T00:00"), c2sample)]⟩]).wasp ("2025-01-01T00:00")
        + (runAgg ["2025-01-01T00:00", "2025-01-01T01:00"]
          [⟨[(("2025-01-01T00:00"), c2sample)]⟩]).rawan ("2025-01-01T00:00")
      = ([⟨[(("2025-01-01T00:00"), c2sample)]⟩] : List LocAxis).countP
          (fun L => (lookupHour L.axis ("2025-01-01T00:00")).isSome)) := by
  refine ⟨by decide, by decide, ?_⟩
  exact claim_C8 ["2025-01-01T00:00", "2025-01-01T01:00"]
    [⟨[(("2025-01-01T00:00"), c2sample)]⟩] ("2025-01-01T00:00") (by decide) (by decide)

/-- A list that survives a front `dropWhile` also survives it after an
arbitrary extension to the right. -/
lemma dropWhile_append_left (p : Char → Bool) (l r : List Char)
    (h : List.dropWhile p l = l) (hne : l ≠ []) :
    List.dropWhile p (l ++ r) = l ++ r := by
  cases l with
  | nil => exact absurd rfl hne
  | cons c cs =>
    have hpc : p c = false := by
      by_contra hcontra
      have hpt : p c = true := by
        cases hp : p c
        · exact absurd hp hcontra
        · rfl
      rw [List.dropWhile_cons, if_pos hpt] at h
      have hlen := congrArg List.length h
      have hle := (List.dropWhile_suffix (l := cs) p).length_le
      simp at hlen
      omega
    rw [List.cons_append, List.dropWhile_cons, hpc]
    simp

/-- A stripped list is already clean of leading whitespace and, reversed, of
trailing whitespace. -/
lemma strip_parts (l : List Char) (h : strip l = l) :
    l.dropWhile isSpaceChar = l ∧ l.reverse.dropWhile isSpaceChar = l.reverse := by
  have hu_le : (l.dropWhile isSpaceChar).length ≤ l.length :=
    (List.dropWhile_suffix isSpaceChar).length_le
  have hv_le : ((l.dropWhile isSpaceChar).reverse.dropWhile isSpaceChar).length
      ≤ (l.dropWhile isSpaceChar).reverse.length :=
    (List.dropWhile_suffix isSpaceChar).length_le
  have hlen : ((l.dropWhile isSpaceChar).reverse.dropWhile isSpaceChar).reverse.length
      = l.length := by
    rw [show ((l.dropWhile isSpaceChar).reverse.dropWhile isSpaceChar).reverse = l from h]
  simp only [List.length_reverse] at hlen hv_le
  have hu : l.dropWhile isSpaceChar = l :=
    (List.dropWhile_suffix isSpaceChar).sublist.eq_of_length (by omega)
  refine ⟨hu, ?_⟩
  rw [hu] at hv_le hlen
  exact (List.dropWhile_suffix isSpaceChar).sublist.eq_of_length
    (by simp only [List.length_reverse]; omega)

/-- Stripping a well-formed `key|value` line is the identity. -/
lemma strip_entry (k v : List Char) (hk : strip k = k) (hkne : k ≠ [])
    (hv : strip v = v) (hvne : v ≠ []) :
    strip (k ++ '|' :: v) = k ++ '|' :: v := by
  obtain ⟨hk1, _⟩ := strip_parts k hk
  obtain ⟨_, hv2⟩ := strip_parts v hv
  have hvrevne : v.reverse ≠ [] := by
    simpa using hvne
  have hrev : (k ++ '|' :: v).reverse = v.reverse ++ '|' :: k.reverse := by
    simp
  unfold strip
  rw [dropWhile_append_left _ _ _ hk1 hkne, hrev,
    dropWhile_append_left _ _ _ hv2 hvrevne, ← hrev, List.reverse_reverse]

/-- Splitting a well-formed line at its first pipe recovers key and value. -/
lemma splitFirstPipe_entry (k v : List Char) (hk : '|' ∉ k) :
    splitFirstPipe (k ++ '|' :: v) = some (k, v) := by
  induction k with
  | nil => simp [splitFirstPipe]
  | cons c cs ih =>
    have hc : ¬(c = '|') := fun h => hk (h ▸ List.mem_cons_self c cs)
    have hcs : '|' ∉ cs := fun h => hk (List.mem_cons_of_mem c h)
    simp only [List.cons_append, splitFirstPipe, if_neg hc, List.append_eq, ih hcs]
    rfl

/-- Parsing the saved line of a clean entry returns the entry. -/
lemma parseLine_entry (k v : List Char) (hk : CleanKey k) (hv : CleanVal v) :
    parseLine (k ++ '|' :: v) = some (k, v) := by
  obtain ⟨hkne, hkstrip, hkpipe, _⟩ := hk
  obtain ⟨hvne, hvstrip, _⟩ := hv
  have hne : ¬(k ++ '|' :: v = []) := by simp
  unfold parseLine
  rw [strip_entry k v hkstrip hkne hvstrip hvne]
  simp only [if_neg hne, splitFirstPipe_entry k v hkpipe, hkstrip, hvstrip]
  rw [if_pos ⟨hkne, hvne⟩]

/-- Splitting at the first newline of a newline-free prefix peels one
line. -/
lemma splitLines_append (l r : List Char) (h : '\n' ∉ l) :
    splitLines (l ++ '\n' :: r) = l :: splitLines r := by
  induction l with
  | nil => simp [splitLines]
  | cons c cs ih =>
    have hc : ¬(c = '\n') := fun hcc => h (hcc ▸ List.mem_cons_self c cs)
    have hcs : '\n' ∉ cs := fun hcc => h (List.mem_cons_of_mem c hcc)
    rw [List.cons_append]
    have hstep : splitLines (c :: (cs ++ '\n' :: r)) =
        match splitLines (cs ++ '\n' :: r) with
        | [] => [[c]]
        | l :: ls => (c :: l) :: ls := by
      conv_lhs => rw [splitLines]
      rw [if_neg hc]
    rw [hstep, ih hcs]

/-- The saved file of a newline-free store splits into one line per entry,
plus the empty tail line after the final newline. -/
lemma splitLines_saveStore (m : List (List Char × List Char))
    (h : ∀ p ∈ m, '\n' ∉ p.1 ∧ '\n' ∉ p.2) :
    splitLines (saveStore m) = (m.map fun p => p.1 ++ '|' :: p.2) ++ [[]] := by
  induction m with
  | nil => rfl
  | cons p rest ih =>
    obtain ⟨k, v⟩ := p
    have hk : '\n' ∉ k := (h (k, v) (List.mem_cons_self _ _)).1
    have hv : '\n' ∉ v := (h (k, v) (List.mem_cons_self _ _)).2
    have hline : '\n' ∉ k ++ '|' :: v := by
      intro hmem
      rcases List.mem_append.mp hmem with h1 | h2
      · exact hk h1
      · rcases List.mem_cons.mp h2 with h3 | h4
        · exact absurd h3.symm (by decide)
        · exact hv h4
    have hassoc : saveStore ((k, v) :: rest) = (k ++ '|' :: v) ++ '\n' :: saveStore rest := by
      conv_lhs => rw [saveStore]
    rw [hassoc, splitLines_append _ _ hline, ih (fun q hq => h q (List.mem_cons_of_mem _ hq))]
    rfl

/-- Assigning a fresh key appends the pair at the end. -/
lemma upsert_not_mem (acc : List (List Char × List Char)) (k v : List Char)
    (h : ∀ q ∈ acc, q.1 ≠ k) :
    upsert acc k v = acc ++ [(k, v)] := by
  induction acc with
  | nil => rfl
  | cons q rest ih =>
    obtain ⟨k0, v0⟩ := q
    have hk0 : ¬(k0 = k) := h (k0, v0) (List.mem_cons_self _ _)
    unfold upsert
    rw [if_neg hk0, ih (fun q hq => h q (List.mem_cons_of_mem _ hq))]
    rfl

/-- Folding the parser over the saved lines of a clean duplicate-free store
appends exactly the store's entries. -/
lemma foldParse_entries : ∀ (m acc : List (List Char × List Char)),
    (∀ p ∈ m, CleanKey p.1 ∧ CleanVal p.2) →
    (m.map Prod.fst).Nodup →
    (∀ p ∈ m, ∀ q ∈ acc, q.1 ≠ p.1) →
    List.foldl
      (fun acc line =>
        match parseLine line with
        | some (k, v) => upsert acc k v
        | none => acc)
      acc (m.map fun p => p.1 ++ '|' :: p.2) = acc ++ m := by
  intro m
  induction m with
  | nil => intro acc _ _ _; simp
  | cons p rest ih =>
    intro acc hclean hnd hdisj
    obtain ⟨k, v⟩ := p
    have hhead := hclean (k, v) (List.mem_cons_self _ _)
    have hknotin : k ∉ rest.map Prod.fst := (List.nodup_cons.mp hnd).1
    simp only [List.map_cons, List.foldl_cons, parseLine_entry k v hhead.1 hhead.2]
    rw [upsert_not_mem acc k v (fun q hq => hdisj (k, v) (List.mem_cons_self _ _) q hq)]
    rw [ih (acc ++ [(k, v)])
      (fun q hq => hclean q (List.mem_cons_of_mem _ hq))
      (List.nodup_cons.mp hnd).2
      ?_]
    · simp
    · intro p hp q hq
      rcases List.mem_append.mp hq with h1 | h2
      · exact hdisj p (List.mem_cons_of_mem _ hp) q h1
      · rcases List.mem_cons.mp h2 with h3 | h4
        · subst h3
          intro hcontra
          apply hknotin
          have hk2 : k = p.1 := hcontra
          rw [hk2]
          exact List.mem_map_of_mem Prod.fst hp
        · cases h4

/-- Claim C9 is false as stated: it constrains only the keys to be
newline-free, but a value holding an interior newline (here `a\nb`, which is
nonempty with no leading or trailing whitespace, under the clean key `k`)
is torn apart by the line-oriented format: the store reloads as `k ↦ a`. -/
theorem claim_C9_counterexample :
    loadStore (saveStore [(['k'], ['a', '\n', 'b'])]) = [(['k'], ['a'])]
    ∧ loadStore (saveStore [(['k'], ['a', '\n', 'b'])]) ≠ [(['k'], ['a', '\n', 'b'])]
    ∧ CleanKey ['k']
    ∧ ['a', '\n', 'b'] ≠ []
    ∧ strip ['a', '\n', 'b'] = ['a', '\n', 'b'] := by
  refine ⟨by decide, ?_, by decide, by decide, by decide⟩
  rw [show loadStore (saveStore [(['k'], ['a', '\n', 'b'])]) = [(['k'], ['a'])] from by decide]
  decide

/-- Claim C9 (amended: the values, too, must be newline-free): for every
store whose keys are nonempty, stripped, pipe-free and newline-free, whose
values are nonempty, stripped and newline-free, and whose keys are
duplicate-free, saving and then loading reproduces the same key→value
map. -/
theorem claim_C9 : ∀ m : List (List Char × List Char),
    (m.map Prod.fst).Nodup →
    (∀ p ∈ m, CleanKey p.1 ∧ CleanVal p.2) →
    loadStore (saveStore m) = m := by
  intro m hnd hclean
  unfold loadStore
  rw [splitLines_saveStore m
    (fun p hp => ⟨(hclean p hp).1.2.2.2, (hclean p hp).2.2.2⟩)]
  rw [List.foldl_append]
  rw [foldParse_entries m [] hclean hnd (by simp)]
  simp [parseLine, strip]

/-- Witness for claim C9: a two-entry store with a name key and a
coordinate-like key survives the round trip. -/
theorem claim_C9_witness :
    (([(['J', 'k', 't'], ['3', '0']), (['6', '.', '1'], ['2', '9'])].map Prod.fst).Nodup)
    ∧ (∀ p ∈ [(['J', 'k', 't'], ['3', '0']), (['6', '.', '1'], ['2', '9'])],
        CleanKey p.1 ∧ CleanVal p.2)
    ∧ loadStore (saveStore [(['J', 'k', 't'], ['3', '0']), (['6', '.', '1'], ['2', '9'])])
        = [(['J', 'k', 't'], ['3', '0']), (['6', '.', '1'], ['2', '9'])] := by
  refine ⟨by decide, by decide, ?_⟩
  exact claim_C9 [(['J', 'k', 't'], ['3', '0']), (['6', '.', '1'], ['2', '9'])]
    (by decide) (by decide)

end Radar
